import Mathlib

/-!
Verification of the vault package (src/vault/vault.go): a secrets vault
layered on a blob store, using HKDF-derived keys, AES-CTR encryption and
an HMAC-SHA-256 tag in encrypt-then-MAC layout.

Shallow embedding conventions:
* bytes are `List Nat` (each element a byte value; only XOR is applied,
  which never leaves the byte range);
* the external cryptographic primitives (the AES-CTR keystream, HMAC-SHA-256,
  HKDF-SHA-256) live in the Go standard library, outside this repository, so
  they are abstracted as a `Prims` structure carrying only their length laws;
* randomness (`rand.Reader`) is passed in explicitly (IVs, unique ids,
  sentinel bytes);
* the blob storage collaborator is a `StorageModel` association list with an
  explicit set of failing writes;
* Go runtime panics (out-of-range slice, negative `make`) are a distinguished
  error constructor `GoErr.panic`, separate from ordinary returned errors.
-/

namespace KopiaVault

/-- Byte strings are lists of naturals. -/
abbrev Bytes := List Nat

/-- Outcome of a Go call: an ordinary returned `error`, or a runtime panic
(slice out of range, negative-length `make`). -/
inductive GoErr where
  | err (msg : String)
  | panic (msg : String)
deriving DecidableEq, Repr

/-- The persisted vault format descriptor (vault.go `Format`). -/
structure Format where
  Version : String
  Encryption : String
  Checksum : String
  UniqueID : Bytes
deriving DecidableEq, Repr

/-- In-memory vault value: master key and format (the storage handle is
passed separately as explicit state). -/
structure Vault where
  masterKey : Bytes
  format : Format
deriving Repr

/-- Abstract interface to the external crypto primitives used by vault.go:
`keystream key iv n` is the first `n` bytes of the AES-CTR keystream,
`hmac key data` the HMAC-SHA-256 tag, `hkdf ikm salt info n` the first `n`
bytes of HKDF-SHA-256 output. Only their output-length laws are assumed. -/
structure Prims where
  keystream : Bytes → Bytes → Nat → Bytes
  hmac : Bytes → Bytes → Bytes
  hkdf : Bytes → Bytes → Bytes → Nat → Bytes
  keystream_len : ∀ k iv n, (keystream k iv n).length = n
  hmac_len : ∀ k d, (hmac k d).length = 32
  hkdf_len : ∀ ikm salt info n, (hkdf ikm salt info n).length = n

/-- vault.go `purposeAESKey = []byte("AES")`. -/
def purposeAESKey : Bytes := [65, 69, 83]

/-- vault.go `purposeChecksumSecret = []byte("CHECKSUM")`. -/
def purposeChecksumSecret : Bytes := [67, 72, 69, 67, 75, 83, 85, 77]

/-- vault.go `deriveKey`: HKDF with the master key as input keying material,
the vault's UniqueID as salt and the purpose label as info. -/
def deriveKey (P : Prims) (v : Vault) (purpose : Bytes) (n : Nat) : Bytes :=
  P.hkdf v.masterKey v.format.UniqueID purpose n

/-- AES block size: 16 bytes for all AES key sizes (`blk.BlockSize()`). -/
def aesBlockSize : Nat := 16

/-- HMAC-SHA-256 output size (`hash.Size()`). -/
def hmacSize : Nat := 32

/-- vault.go `newCipher`: selects the cipher by the format's encryption tag.
`none` yields no cipher (Go returns `nil, nil`), the aes variants derive a
16/24/32-byte key; anything else is an error. The returned value is the
derived AES key (`some key`) or `none` for no encryption. -/
def newCipher (P : Prims) (v : Vault) : Except GoErr (Option Bytes) :=
  match v.format.Encryption with
  | "none" => .ok none
  | "aes-128" => .ok (some (deriveKey P v purposeAESKey 16))
  | "aes-192" => .ok (some (deriveKey P v purposeAESKey 24))
  | "aes-256" => .ok (some (deriveKey P v purposeAESKey 32))
  | other => .error (.err ("unsupported encryption format: " ++ other))

/-- vault.go `newChecksum`: selects the MAC by the format's checksum tag;
only `hmac-sha-256` is supported, keyed by a 32-byte derived key. The
returned value is the derived MAC key. -/
def newChecksum (P : Prims) (v : Vault) : Except GoErr Bytes :=
  match v.format.Checksum with
  | "hmac-sha-256" => .ok (deriveKey P v purposeChecksumSecret 32)
  | other => .error (.err ("unsupported checksum format: " ++ other))

/-- CTR-mode `XORKeyStream`: XOR the source with the keystream for the given
key and IV. -/
def ctrXor (P : Prims) (key iv src : Bytes) : Bytes :=
  List.zipWith Nat.xor src (P.keystream key iv src.length)

/-- The encryption half of vault.go `Put` (lines 51-78): with no cipher the
content passes through unchanged; otherwise the blob is
`IV || ciphertext || HMAC(macKey, IV || ciphertext)`, the IV being the random
bytes drawn for this write. -/
def encodeBlob (P : Prims) (v : Vault) (iv content : Bytes) : Except GoErr Bytes := do
  let blk ← newCipher P v
  match blk with
  | none => pure content
  | some key => do
    let macKey ← newChecksum P v
    let ct := ctrXor P key iv content
    pure (iv ++ ct ++ P.hmac macKey (iv ++ ct))

/-- The decryption half of vault.go `readEncryptedBlock` (lines 94-118),
with Go's runtime behaviour made explicit: `p := len(content) - hash.Size()`
is a signed int, and `content[0:p]` panics when `p < 0`; after a passing MAC
check, `make([]byte, len(content)-ivLength-hash.Size())` panics when that
length is negative. Otherwise the MAC over everything but the trailing tag is
recomputed and compared (`hmac.Equal`), and only on a match is the CTR
keystream applied to `content[ivLength : len(content)-hash.Size()]`. -/
def decodeBlob (P : Prims) (v : Vault) (content : Bytes) : Except GoErr Bytes := do
  let blk ← newCipher P v
  match blk with
  | none => pure content
  | some key => do
    let macKey ← newChecksum P v
    if content.length < hmacSize then
      throw (.panic "slice bounds out of range")
    else
      let p := content.length - hmacSize
      let expectedChecksum := P.hmac macKey (content.take p)
      let actualChecksum := content.drop p
      if expectedChecksum ≠ actualChecksum then
        throw (.err "cannot read encrypted block: incorrect checksum")
      else if content.length < aesBlockSize + hmacSize then
        throw (.panic "makeslice: len out of range")
      else
        pure (ctrXor P key (content.take aesBlockSize)
          ((content.drop aesBlockSize).take (content.length - aesBlockSize - hmacSize)))

/-- The external blob storage collaborator: stored blocks as an association
list (later writes shadow earlier ones) plus the set of item ids whose writes
fail. -/
structure StorageModel where
  blocks : List (String × Bytes)
  putFails : String → Bool

/-- Storage `GetBlock`: first stored blob under the id, or a not-found error. -/
def getBlock (st : StorageModel) (id : String) : Except GoErr Bytes :=
  match st.blocks.lookup id with
  | some b => .ok b
  | none => .error (.err "not found")

/-- Storage `PutBlock` with overwrite semantics; fails on the ids the model
designates as failing. -/
def putBlock (st : StorageModel) (id : String) (b : Bytes) : Except GoErr StorageModel :=
  if st.putFails id then .error (.err "write failed")
  else .ok { st with blocks := (id, b) :: st.blocks }

/-- Storage `DeleteBlock`: drop every entry stored under the id. -/
def deleteBlock (st : StorageModel) (id : String) : StorageModel :=
  { st with blocks := st.blocks.filter (fun e => e.1 != id) }

/-- vault.go `Put`: encode the content (with the random IV drawn for this
write) and overwrite-write the blob to storage. -/
def Put (P : Prims) (v : Vault) (st : StorageModel) (iv : Bytes)
    (itemID : String) (content : Bytes) : Except GoErr StorageModel := do
  let blob ← encodeBlob P v iv content
  putBlock st itemID blob

/-- vault.go `readEncryptedBlock`: fetch the raw blob, then verify-and-decrypt. -/
def readEncryptedBlock (P : Prims) (v : Vault) (st : StorageModel)
    (itemID : String) : Except GoErr Bytes := do
  let content ← getBlock st itemID
  decodeBlob P v content

/-- vault.go `Get` simply delegates to `readEncryptedBlock`. -/
def Get (P : Prims) (v : Vault) (st : StorageModel) (itemID : String) :
    Except GoErr Bytes :=
  readEncryptedBlock P v st itemID

/-- vault.go `getJSON` (lines 210-217): on a failed decrypted read it returns
`nil` (success) without touching the output value — modeled as `.ok none`,
the output left at its zero value; only on a successful read is the external
`json.Unmarshal` (the `unmarshal` parameter) invoked. -/
def getJSON {α : Type} (P : Prims) (v : Vault) (st : StorageModel)
    (itemID : String) (unmarshal : Bytes → Except GoErr α) :
    Except GoErr (Option α) :=
  match readEncryptedBlock P v st itemID with
  | .error _ => .ok none
  | .ok j =>
    match unmarshal j with
    | .error e => .error e
    | .ok a => .ok (some a)

/-- vault.go `Remove`: the three reserved ids fail; anything else delegates
to the storage collaborator's delete. -/
def Remove (st : StorageModel) (itemID : String) : Except GoErr StorageModel :=
  if itemID = "format" ∨ itemID = "repo" ∨ itemID = "checksum" then
    .error (.err ("item cannot be deleted: " ++ itemID))
  else
    .ok (deleteBlock st itemID)

/-- The token payload `vaultConfig`: the vault storage's connection
descriptor (opaque bytes here) and the raw master key. -/
structure VaultConfig where
  connectionInfo : Bytes
  key : Bytes

/-- vault.go `Create` (lines 278-330). External collaborators are passed in:
`marshalFormat` stands for `json.Marshal` of the format, `getMasterKey` for
`vaultCreds.getMasterKey`, `uniqueID`/`sentinel`/`iv1`/`iv2` for the bytes
drawn from `rand.Reader` (32 for the unique id, 512 for the sentinel, one IV
per encrypted write), `repoCfgBytes` for the marshalled repository
configuration and `repoHasConnInfo` for the repository storage's
connection-info capability check. Note the faithful quirk on the `format`
write: Go discards the return value of that `PutBlock` call, so a failure
leaves storage unchanged and `Create` carries on. -/
def Create (P : Prims) (marshalFormat : Format → Bytes)
    (getMasterKey : Bytes → Bytes) (vaultFormat : Format)
    (uniqueID sentinel iv1 iv2 repoCfgBytes : Bytes)
    (repoHasConnInfo : Bool) (st : StorageModel) :
    Except GoErr (Vault × StorageModel) := do
  if !repoHasConnInfo then
    throw (.err "repository does not support persisting configuration")
  else
    let fmt : Format :=
      { vaultFormat with Version := "1", UniqueID := uniqueID }
    let v : Vault := { masterKey := getMasterKey uniqueID, format := fmt }
    let st1 :=
      match putBlock st "format" (marshalFormat fmt) with
      | .ok s => s
      | .error _ => st
    let st2 ← Put P v st1 iv1 "checksum" sentinel
    let st3 ← Put P v st2 iv2 "repo" repoCfgBytes
    pure (v, st3)

/-- vault.go `Open` (lines 333-355): read the plaintext `format` block, parse
it (`parseFormat` stands for `json.Unmarshal`), derive the master key from
the credentials and the loaded unique id, then validate the credentials by
decoding the `checksum` sentinel; any failure aborts and no vault is
returned. -/
def Open (P : Prims) (parseFormat : Bytes → Except GoErr Format)
    (getMasterKey : Bytes → Bytes) (st : StorageModel) :
    Except GoErr Vault := do
  let f ← getBlock st "format"
  let fmt ← parseFormat f
  let v : Vault := { masterKey := getMasterKey fmt.UniqueID, format := fmt }
  let _ ← readEncryptedBlock P v st "checksum"
  pure v

/-- vault.go `OpenWithToken` (lines 358-381). The stdlib/collaborator steps
are parameters: `b64decode` for `base64.RawURLEncoding.DecodeString`,
`unmarshalVC` for `json.Unmarshal` into `vaultConfig`, `newStorage` for
`blob.NewStorage`, and `masterKeyCreds` for the `MasterKey` credentials
constructor (its source is outside this repository; per the spec it wraps a
raw key as credentials and may reject the key). Each failure keeps the exact
message of the corresponding `fmt.Errorf` in the source. -/
def OpenWithToken (P : Prims) (b64decode : String → Except String Bytes)
    (unmarshalVC : Bytes → Except String VaultConfig)
    (newStorage : Bytes → Except String StorageModel)
    (masterKeyCreds : Bytes → Except String (Bytes → Bytes))
    (parseFormat : Bytes → Except GoErr Format)
    (token : String) : Except GoErr Vault :=
  match b64decode token with
  | .error e => .error (.err ("invalid vault base64 token: " ++ e))
  | .ok b =>
    match unmarshalVC b with
    | .error e => .error (.err ("invalid vault json token: " ++ e))
    | .ok vc =>
      match newStorage vc.connectionInfo with
      | .error e => .error (.err ("cannot open vault storage: " ++ e))
      | .ok st =>
        match masterKeyCreds vc.key with
        | .error _ => .error (.err "invalid vault token")
        | .ok creds => Open P parseFormat creds st

/-- The MAC key a given master key and unique id derive (the key
`newChecksum` returns for `hmac-sha-256`); used to state credential-mismatch
properties. -/
def macKeyFor (P : Prims) (mk uid : Bytes) : Bytes :=
  P.hkdf mk uid purposeChecksumSecret 32

/-- The format's encryption tag is one of the three supported AES variants. -/
def aesEnc (s : String) : Prop :=
  s = "aes-128" ∨ s = "aes-192" ∨ s = "aes-256"

/-- A concrete instantiation of the abstract primitives, used to evaluate the
model on explicit inputs: the keystream is constant, the MAC is the key
padded/truncated to 32 bytes with the data appended first, HKDF truncates
the concatenated inputs. They satisfy the length laws and (for 32-byte keys)
the MAC is injective in its key. -/
def testPrims : Prims where
  keystream := fun _ _ n => List.replicate n 7
  hmac := fun k d => (k ++ d ++ List.replicate 32 0).take 32
  hkdf := fun ikm salt info n => (ikm ++ salt ++ info ++ List.replicate n 0).take n
  keystream_len := by
    intro k iv n
    simp
  hmac_len := by
    intro k d
    simp
    omega
  hkdf_len := by
    intro ikm salt info n
    simp
    omega

/-- Fixtures for concrete evaluation of the model. -/
def wFmtAes : Format :=
  { Version := "1", Encryption := "aes-128", Checksum := "hmac-sha-256",
    UniqueID := List.replicate 32 1 }

/-- A concrete vault with AES-128 encryption and HMAC-SHA-256 checksum. -/
def wVault : Vault := { masterKey := List.replicate 32 2, format := wFmtAes }

/-- Empty storage where every write succeeds. -/
def wStorage : StorageModel := { blocks := [], putFails := fun _ => false }

/-- A concrete 16-byte IV. -/
def wIV : Bytes := List.replicate 16 0

/-- The storage state after writing payload `[10, 20, 30]` under `"x"`. -/
def wStorageAfterPut : StorageModel :=
  match Put testPrims wVault wStorage wIV "x" [10, 20, 30] with
  | .ok s => s
  | .error _ => wStorage

/-- The AES key size `newCipher` derives for each supported variant. -/
def aesKeySize (enc : String) : Nat :=
  if enc = "aes-128" then 16 else if enc = "aes-192" then 24 else 32

/-- A vault whose format disables encryption but still names a checksum
algorithm. -/
def wVaultNone : Vault :=
  { masterKey := List.replicate 32 2,
    format := { Version := "1", Encryption := "none",
                Checksum := "hmac-sha-256", UniqueID := List.replicate 32 1 } }

/-- Primitives identical to `testPrims` except for the keystream. -/
def testPrims2 : Prims where
  keystream := fun _ _ n => List.replicate n 5
  hmac := testPrims.hmac
  hkdf := testPrims.hkdf
  keystream_len := by
    intro k iv n
    simp
  hmac_len := testPrims.hmac_len
  hkdf_len := testPrims.hkdf_len

/-- An unmarshal function that always fails. -/
def wU1 : Bytes → Except GoErr Bytes := fun _ => .error (.err "unmarshal run")

/-- An unmarshal function that always succeeds. -/
def wU2 : Bytes → Except GoErr Bytes := fun b => .ok b

/-- Storage holding one removable item. -/
def wStC9 : StorageModel :=
  { blocks := [("x", [1]), ("format", [2])], putFails := fun _ => false }

/-- Plaintext format bytes stored by the creating vault. -/
def wFmtBytes : Bytes := [0]

/-- Storage as left by a creation under master key `replicate 32 2`: a
format block and a checksum sentinel whose tag was derived from that key. -/
def wStC4 : StorageModel :=
  { blocks := [("format", wFmtBytes), ("checksum", List.replicate 32 2)],
    putFails := fun _ => false }

/-- Parsing collaborator returning the concrete AES format. -/
def wParseFormat : Bytes → Except GoErr Format := fun _ => .ok wFmtAes

/-- Credentials yielding a master key different from the creating one. -/
def wGetMK2 : Bytes → Bytes := fun _ => List.replicate 32 3

/-- Format descriptor for the creation scenario (encryption disabled). -/
def wFmtNoneC7 : Format :=
  { Version := "", Encryption := "none", Checksum := "hmac-sha-256", UniqueID := [] }

/-- Marshalling collaborator for the format descriptor. -/
def wMarshalFormat : Format → Bytes := fun _ => [42]

/-- Credentials for the creation scenario. -/
def wGetMK : Bytes → Bytes := fun _ => List.replicate 32 2

/-- A vault storage on which exactly the write of the `format` block fails. -/
def wFailFormatStorage : StorageModel :=
  { blocks := [], putFails := fun id => id == "format" }

/-- Fresh unique id drawn at creation. -/
def wUID : Bytes := List.replicate 32 1

/-- The 512 random sentinel bytes drawn at creation. -/
def wSentinel : Bytes := List.replicate 512 9

/-- Marshalled repository configuration. -/
def wRepoCfg : Bytes := [1, 2, 3]

/-- The vault value the failing-format creation scenario returns. -/
def wVaultC7 : Vault :=
  { masterKey := wGetMK wUID,
    format := { wFmtNoneC7 with Version := "1", UniqueID := wUID } }

/-- The storage state the failing-format creation scenario leaves behind:
`checksum` and `repo` were written, `format` was not. -/
def wStAfterC7 : StorageModel :=
  { blocks := [("repo", wRepoCfg), ("checksum", wSentinel)],
    putFails := fun id => id == "format" }

/-- Base64 collaborator: fails on one token, yields distinct payloads on two
others. -/
def wB64 : String → Except String Bytes := fun s =>
  if s = "BAD" then .error "illegal base64 data"
  else if s = "J" then .ok [1]
  else .ok [2]

/-- JSON collaborator: fails on the payload of token `J`, succeeds with a
rejectable key on the payload of token `K`. -/
def wUnmarshalVC : Bytes → Except String VaultConfig := fun b =>
  if b = [1] then .error "unexpected end of JSON input"
  else .ok ⟨[9], [7]⟩

/-- Storage-construction collaborator that always succeeds. -/
def wNewStorage : Bytes → Except String StorageModel := fun _ => .ok wStorage

/-- Credentials constructor rejecting the key `[7]`. -/
def wMasterKeyCreds : Bytes → Except String (Bytes → Bytes) := fun k =>
  if k = [7] then .error "invalid key" else .ok (fun _ => k)

/-- Format-parsing collaborator for the token scenario. -/
def wParseFormatC8 : Bytes → Except GoErr Format := fun _ => .ok wFmtAes

/-! Helper lemmas. -/

/-- XOR-ing twice with the same (sufficiently long) keystream is the
identity. -/
theorem zipWith_xor_cancel (l ks : List Nat) (h : l.length ≤ ks.length) :
    List.zipWith Nat.xor (List.zipWith Nat.xor l ks) ks = l := by
  induction l generalizing ks with
  | nil => simp
  | cons a t ih =>
    cases ks with
    | nil => simp at h
    | cons b ks' =>
      simp only [List.zipWith, List.cons.injEq]
      refine ⟨Nat.xor_cancel_right b a, ih ks' ?_⟩
      simpa using h

/-- Looking up a key in a list from which all its entries were filtered out
yields nothing. -/
theorem lookup_filter_ne (l : List (String × Bytes)) (k : String) :
    (l.filter (fun e => e.1 != k)).lookup k = none := by
  induction l with
  | nil => rfl
  | cons a t ih =>
    by_cases h : a.1 = k
    · simpa [List.filter, h] using ih
    · have hne : (a.1 != k) = true := by simp [h]
      have hbeq : (k == a.1) = false := by
        simp [beq_eq_false_iff_ne]
        exact fun hh => h hh.symm
      simp only [List.filter, hne, List.lookup, hbeq]
      exact ih

/-- Reduction of a successful `Except` bind. -/
theorem except_bind_ok {ε α β : Type} (a : α) (f : α → Except ε β) :
    ((Except.ok a : Except ε α) >>= f) = f a := rfl

/-- The CTR pass preserves length (ciphertext is exactly as long as the
plaintext). -/
theorem ctrXor_length (P : Prims) (key iv src : Bytes) :
    (ctrXor P key iv src).length = src.length := by
  simp [ctrXor, List.length_zipWith, P.keystream_len]

/-- The CTR pass is an involution: decrypting with the same key and IV
recovers the source. -/
theorem ctrXor_ctrXor (P : Prims) (key iv src : Bytes) :
    ctrXor P key iv (ctrXor P key iv src) = src := by
  unfold ctrXor
  rw [List.length_zipWith, P.keystream_len, Nat.min_self]
  exact zipWith_xor_cancel src (P.keystream key iv src.length)
    (le_of_eq (P.keystream_len key iv src.length).symm)

/-- When the format names one of the AES variants, `newCipher` succeeds with
a derived key. -/
theorem newCipher_aes (P : Prims) (v : Vault) (h : aesEnc v.format.Encryption) :
    newCipher P v = .ok (some (deriveKey P v purposeAESKey 16)) ∨
    newCipher P v = .ok (some (deriveKey P v purposeAESKey 24)) ∨
    newCipher P v = .ok (some (deriveKey P v purposeAESKey 32)) := by
  rcases h with h | h | h <;> simp [newCipher, h]

/-- When the format names `hmac-sha-256`, `newChecksum` returns the derived
MAC key. -/
theorem newChecksum_hmac (P : Prims) (v : Vault)
    (h : v.format.Checksum = "hmac-sha-256") :
    newChecksum P v = .ok (macKeyFor P v.masterKey v.format.UniqueID) := by
  simp [newChecksum, h, macKeyFor, deriveKey]

/-- With a cipher and a MAC key selected, `encodeBlob` produces exactly
`IV || ciphertext || HMAC(macKey, IV || ciphertext)`. -/
theorem encodeBlob_eq (P : Prims) (v : Vault) (key macKey iv p : Bytes)
    (hcip : newCipher P v = .ok (some key))
    (hchk : newChecksum P v = .ok macKey) :
    encodeBlob P v iv p =
      .ok (iv ++ ctrXor P key iv p ++
        P.hmac macKey (iv ++ ctrXor P key iv p)) := by
  simp [encodeBlob, hcip, hchk, except_bind_ok]

/-- With a cipher and a MAC key selected and a 16-byte IV, `decodeBlob`
inverts the encoded layout and recovers the plaintext. -/
theorem decodeBlob_layout (P : Prims) (v : Vault) (key macKey iv p : Bytes)
    (hcip : newCipher P v = .ok (some key))
    (hchk : newChecksum P v = .ok macKey)
    (hiv : iv.length = 16) :
    decodeBlob P v (iv ++ ctrXor P key iv p ++
      P.hmac macKey (iv ++ ctrXor P key iv p)) = .ok p := by
  set ct := ctrXor P key iv p with hct
  have hctlen : ct.length = p.length := ctrXor_length P key iv p
  set tag := P.hmac macKey (iv ++ ct) with htagdef
  have htaglen : tag.length = 32 := P.hmac_len macKey (iv ++ ct)
  have hlen : (iv ++ ct ++ tag).length = p.length + 48 := by
    simp [hiv, hctlen, htaglen]
    omega
  have hbody : (iv ++ ct).length = p.length + 16 := by
    simp [hiv, hctlen]
    omega
  have htake : (iv ++ ct ++ tag).take ((iv ++ ct ++ tag).length - 32) = iv ++ ct := by
    rw [hlen]
    have h1 : p.length + 48 - 32 = (iv ++ ct).length := by omega
    rw [h1]
    exact List.take_left _ _
  have hdrop : (iv ++ ct ++ tag).drop ((iv ++ ct ++ tag).length - 32) = tag := by
    rw [hlen]
    have h1 : p.length + 48 - 32 = (iv ++ ct).length := by omega
    rw [h1]
    exact List.drop_left _ _
  have htake16 : (iv ++ ct ++ tag).take 16 = iv := by
    rw [List.append_assoc, ← hiv]
    exact List.take_left _ _
  have hdrop16 : (iv ++ ct ++ tag).drop 16 = ct ++ tag := by
    rw [List.append_assoc, ← hiv]
    exact List.drop_left _ _
  have htakect : (ct ++ tag).take ((iv ++ ct ++ tag).length - 16 - 32) = ct := by
    rw [hlen]
    have h1 : p.length + 48 - 16 - 32 = ct.length := by omega
    rw [h1]
    exact List.take_left _ _
  simp only [decodeBlob, hcip, hchk, except_bind_ok, hmacSize, aesBlockSize]
  have h32 : ¬ ((iv ++ ct ++ tag).length < 32) := by omega
  rw [if_neg h32]
  rw [htake, hdrop]
  have hmaceq : ¬ (P.hmac macKey (iv ++ ct) ≠ tag) := by
    simp [htagdef]
  rw [if_neg hmaceq]
  have h48 : ¬ ((iv ++ ct ++ tag).length < 16 + 32) := by omega
  rw [if_neg h48]
  rw [htake16, hdrop16, htakect, hct]
  rw [ctrXor_ctrXor]
  rfl

/-- Reduction of a failed `Except` bind. -/
theorem except_bind_err {ε α β : Type} (e : ε) (f : α → Except ε β) :
    ((Except.error e : Except ε α) >>= f) = Except.error e := rfl

/-- With encryption `none`, encoding is the identity. -/
theorem encodeBlob_none (P : Prims) (v : Vault) (iv p : Bytes)
    (h : v.format.Encryption = "none") : encodeBlob P v iv p = .ok p := by
  simp only [encodeBlob, newCipher, h, except_bind_ok]
  rfl

/-- With encryption `none`, decoding is the identity. -/
theorem decodeBlob_none (P : Prims) (v : Vault) (b : Bytes)
    (h : v.format.Encryption = "none") : decodeBlob P v b = .ok b := by
  simp only [decodeBlob, newCipher, h, except_bind_ok]
  rfl

/-- Reading a block just written under the same id returns that block. -/
theorem getBlock_cons_self (l : List (String × Bytes)) (pf : String → Bool)
    (id : String) (b : Bytes) :
    getBlock ⟨(id, b) :: l, pf⟩ id = .ok b := by
  simp [getBlock, List.lookup]

/-- Pure round-trip: any blob `encodeBlob` produces under a supported
(encryption, checksum) pair decodes back to the original payload. -/
theorem decodeBlob_encodeBlob (P : Prims) (v : Vault) (iv p blob : Bytes)
    (henc : v.format.Encryption = "none" ∨ aesEnc v.format.Encryption)
    (hck : v.format.Checksum = "hmac-sha-256")
    (hiv : iv.length = 16)
    (h : encodeBlob P v iv p = .ok blob) :
    decodeBlob P v blob = .ok p := by
  rcases henc with hnone | haes
  · rw [encodeBlob_none P v iv p hnone] at h
    injection h with h
    rw [← h]
    exact decodeBlob_none P v p hnone
  · have hchk := newChecksum_hmac P v hck
    rcases newCipher_aes P v haes with hcip | hcip | hcip <;>
    · rw [encodeBlob_eq P v _ _ iv p hcip hchk] at h
      injection h with h
      rw [← h]
      exact decodeBlob_layout P v _ _ iv p hcip hchk hiv

/-! Claim theorems. -/

/-- C1: for every byte payload `p` and every supported (encryption, checksum)
pair — encryption one of none/aes-128/aes-192/aes-256 and checksum
hmac-sha-256 — decoding recovers the payload: `readEncryptedBlock` applied to
the storage state `Put` produced (same vault format, master key and unique
id) returns exactly `p`. -/
theorem C1_put_read_roundtrip (P : Prims) (v : Vault)
    (st st' : StorageModel) (iv p : Bytes) (itemID : String)
    (henc : v.format.Encryption = "none" ∨ aesEnc v.format.Encryption)
    (hck : v.format.Checksum = "hmac-sha-256")
    (hiv : iv.length = 16)
    (hput : Put P v st iv itemID p = .ok st') :
    readEncryptedBlock P v st' itemID = .ok p := by
  unfold Put at hput
  cases hb : encodeBlob P v iv p with
  | error e =>
    rw [hb, except_bind_err] at hput
    exact absurd hput (by simp)
  | ok blob =>
    rw [hb, except_bind_ok] at hput
    unfold putBlock at hput
    by_cases hf : st.putFails itemID
    · rw [if_pos hf] at hput
      exact absurd hput (by simp)
    · rw [if_neg hf] at hput
      injection hput with hput
      unfold readEncryptedBlock
      rw [← hput, getBlock_cons_self, except_bind_ok]
      exact decodeBlob_encodeBlob P v iv p blob henc hck hiv hb

theorem C1_put_read_roundtrip_witness :
    readEncryptedBlock testPrims wVault wStorageAfterPut "x" = .ok [10, 20, 30] :=
  C1_put_read_roundtrip testPrims wVault wStorage wStorageAfterPut wIV
    [10, 20, 30] "x" (Or.inr (Or.inl rfl)) rfl rfl rfl

/-- On the AES variants, `newCipher` returns the key derived with the
`AES` purpose label at the variant's key size. -/
theorem newCipher_aes_eq (P : Prims) (v : Vault) (h : aesEnc v.format.Encryption) :
    newCipher P v =
      .ok (some (deriveKey P v purposeAESKey (aesKeySize v.format.Encryption))) := by
  rcases h with h | h | h <;> simp [newCipher, aesKeySize, h]

/-- C3: with AES encryption and hmac-sha-256, the blob `Put` builds has the
exact layout `IV || ciphertext || tag`, the ciphertext as long as the
plaintext, the tag 32 bytes, the IV one cipher block, and the MAC computed
over `IV || ciphertext` — not over the plaintext, and not over the tag
itself. -/
theorem C3_encrypted_layout (P : Prims) (v : Vault) (iv p : Bytes)
    (henc : aesEnc v.format.Encryption)
    (hck : v.format.Checksum = "hmac-sha-256")
    (hiv : iv.length = 16) :
    encodeBlob P v iv p =
      .ok (iv ++ ctrXor P (deriveKey P v purposeAESKey (aesKeySize v.format.Encryption)) iv p
        ++ P.hmac (macKeyFor P v.masterKey v.format.UniqueID)
            (iv ++ ctrXor P (deriveKey P v purposeAESKey (aesKeySize v.format.Encryption)) iv p)) ∧
    (ctrXor P (deriveKey P v purposeAESKey (aesKeySize v.format.Encryption)) iv p).length
      = p.length ∧
    (P.hmac (macKeyFor P v.masterKey v.format.UniqueID)
      (iv ++ ctrXor P (deriveKey P v purposeAESKey (aesKeySize v.format.Encryption)) iv p)).length
      = hmacSize ∧
    iv.length = aesBlockSize := by
  refine ⟨?_, ctrXor_length P _ iv p, P.hmac_len _ _, hiv⟩
  exact encodeBlob_eq P v _ _ iv p (newCipher_aes_eq P v henc) (newChecksum_hmac P v hck)

theorem C3_encrypted_layout_witness :
    encodeBlob testPrims wVault wIV [1, 2, 3] =
      .ok (wIV ++ ctrXor testPrims (deriveKey testPrims wVault purposeAESKey
            (aesKeySize wVault.format.Encryption)) wIV [1, 2, 3]
        ++ testPrims.hmac (macKeyFor testPrims wVault.masterKey wVault.format.UniqueID)
            (wIV ++ ctrXor testPrims (deriveKey testPrims wVault purposeAESKey
              (aesKeySize wVault.format.Encryption)) wIV [1, 2, 3])) ∧
    (ctrXor testPrims (deriveKey testPrims wVault purposeAESKey
      (aesKeySize wVault.format.Encryption)) wIV [1, 2, 3]).length = ([1, 2, 3] : Bytes).length ∧
    (testPrims.hmac (macKeyFor testPrims wVault.masterKey wVault.format.UniqueID)
      (wIV ++ ctrXor testPrims (deriveKey testPrims wVault purposeAESKey
        (aesKeySize wVault.format.Encryption)) wIV [1, 2, 3])).length = hmacSize ∧
    wIV.length = aesBlockSize :=
  C3_encrypted_layout testPrims wVault wIV [1, 2, 3] (Or.inl rfl) rfl rfl

/-- C5: with encryption `none` (whatever checksum algorithm the format
names), `Put` stores the plaintext verbatim — no IV, no MAC — and decoding
returns stored bytes verbatim: both directions are the identity. -/
theorem C5_none_identity (P : Prims) (v : Vault) (st : StorageModel)
    (iv p b : Bytes) (itemID : String)
    (henc : v.format.Encryption = "none")
    (hf : st.putFails itemID = false) :
    Put P v st iv itemID p = .ok { st with blocks := (itemID, p) :: st.blocks } ∧
    decodeBlob P v b = .ok b ∧
    readEncryptedBlock P v { st with blocks := (itemID, p) :: st.blocks } itemID
      = .ok p := by
  refine ⟨?_, decodeBlob_none P v b henc, ?_⟩
  · unfold Put
    rw [encodeBlob_none P v iv p henc, except_bind_ok]
    unfold putBlock
    rw [if_neg (by simp [hf])]
  · unfold readEncryptedBlock
    rw [getBlock_cons_self, except_bind_ok]
    exact decodeBlob_none P v p henc

theorem C5_none_identity_witness :
    Put testPrims wVaultNone wStorage wIV "x" [4, 5] =
      .ok { wStorage with blocks := ("x", [4, 5]) :: wStorage.blocks } ∧
    decodeBlob testPrims wVaultNone [8, 9] = .ok [8, 9] ∧
    readEncryptedBlock testPrims wVaultNone
      { wStorage with blocks := ("x", [4, 5]) :: wStorage.blocks } "x" = .ok [4, 5] :=
  C5_none_identity testPrims wVaultNone wStorage wIV [4, 5] [8, 9] "x" rfl rfl

/-- C2: with encryption enabled, decoding first recomputes the MAC over
everything except the trailing 32-byte tag and compares it to that tag; on a
mismatch it fails with the `incorrect checksum` integrity error, and no CTR
decryption is performed — the result does not depend on the keystream
primitive at all (any primitives agreeing on `hmac` and `hkdf` give the same
result), so decryption runs only after the comparison succeeds. -/
theorem C2_verify_then_decrypt (P P2 : Prims) (v : Vault) (content : Bytes)
    (henc : aesEnc v.format.Encryption)
    (hck : v.format.Checksum = "hmac-sha-256")
    (hlen : 32 ≤ content.length)
    (hmismatch : P.hmac (macKeyFor P v.masterKey v.format.UniqueID)
        (content.take (content.length - 32)) ≠ content.drop (content.length - 32))
    (hhmac : P2.hmac = P.hmac) (hhkdf : P2.hkdf = P.hkdf) :
    decodeBlob P v content =
      .error (.err "cannot read encrypted block: incorrect checksum") ∧
    decodeBlob P2 v content = decodeBlob P v content := by
  have key := newCipher_aes_eq P v henc
  have key2 := newCipher_aes_eq P2 v henc
  have chk := newChecksum_hmac P v hck
  have chk2 := newChecksum_hmac P2 v hck
  have hmk : macKeyFor P2 v.masterKey v.format.UniqueID
      = macKeyFor P v.masterKey v.format.UniqueID := by
    simp [macKeyFor, hhkdf]
  have h1 : decodeBlob P v content =
      .error (.err "cannot read encrypted block: incorrect checksum") := by
    simp only [decodeBlob, key, chk, except_bind_ok, hmacSize, aesBlockSize]
    rw [if_neg (by omega)]
    rw [if_pos hmismatch]
    rfl
  refine ⟨h1, ?_⟩
  rw [h1]
  simp only [decodeBlob, key2, chk2, except_bind_ok, hmacSize, aesBlockSize]
  rw [if_neg (by omega)]
  rw [if_pos (by rw [hmk, hhmac]; exact hmismatch)]
  rfl

theorem C2_verify_then_decrypt_witness :
    decodeBlob testPrims wVault (List.replicate 32 9) =
      .error (.err "cannot read encrypted block: incorrect checksum") ∧
    decodeBlob testPrims2 wVault (List.replicate 32 9)
      = decodeBlob testPrims wVault (List.replicate 32 9) :=
  C2_verify_then_decrypt testPrims testPrims2 wVault (List.replicate 32 9)
    (Or.inl rfl) rfl (by decide) (by decide) rfl rfl

/-- C6: when the underlying decrypted read fails for any reason, `getJSON`
returns success with the output left at its zero value, and the unmarshal
step is never invoked — the result is the same for any two unmarshal
functions. -/
theorem C6_getJSON_swallows_read_errors {α : Type} (P : Prims) (v : Vault)
    (st : StorageModel) (itemID : String)
    (u1 u2 : Bytes → Except GoErr α) (e : GoErr)
    (hfail : readEncryptedBlock P v st itemID = .error e) :
    getJSON P v st itemID u1 = .ok none ∧
    getJSON P v st itemID u1 = getJSON P v st itemID u2 := by
  unfold getJSON
  rw [hfail]
  exact ⟨rfl, rfl⟩

theorem C6_getJSON_swallows_read_errors_witness :
    getJSON testPrims wVault wStorage "y" wU1 = .ok none ∧
    getJSON testPrims wVault wStorage "y" wU1 = getJSON testPrims wVault wStorage "y" wU2 :=
  C6_getJSON_swallows_read_errors testPrims wVault wStorage "y" wU1 wU2
    (.err "not found") rfl

/-- C9: removing any of the three reserved items fails with the
protected-item error naming the item and leaves storage untouched (no delete
is issued); removing any other id delegates to the storage delete, after
which `Get` on that id fails with the not-found error. -/
theorem C9_remove_protection (P : Prims) (v : Vault) (st : StorageModel)
    (rid itemID : String)
    (hres : rid = "format" ∨ rid = "checksum" ∨ rid = "repo")
    (h1 : itemID ≠ "format") (h2 : itemID ≠ "checksum") (h3 : itemID ≠ "repo") :
    Remove st rid = .error (.err ("item cannot be deleted: " ++ rid)) ∧
    Remove st itemID = .ok (deleteBlock st itemID) ∧
    Get P v (deleteBlock st itemID) itemID = .error (.err "not found") := by
  refine ⟨?_, ?_, ?_⟩
  · unfold Remove
    rw [if_pos (by tauto)]
  · unfold Remove
    rw [if_neg (by tauto)]
  · unfold Get readEncryptedBlock
    have hlk : getBlock (deleteBlock st itemID) itemID = .error (.err "not found") := by
      simp [getBlock, deleteBlock, lookup_filter_ne]
    rw [hlk, except_bind_err]

theorem C9_remove_protection_witness :
    Remove wStC9 "format" = .error (.err "item cannot be deleted: format") ∧
    Remove wStC9 "x" = .ok (deleteBlock wStC9 "x") ∧
    Get testPrims wVault (deleteBlock wStC9 "x") "x" = .error (.err "not found") :=
  C9_remove_protection testPrims wVault wStC9 "format" "x"
    (Or.inl rfl) (by decide) (by decide) (by decide)

/-- C4: `Open` with credentials yielding a different master key fails. The
cryptographic content of "different master key implies different tag" is
supplied as hypotheses on the abstract primitives — the derived MAC keys
differ and the MAC is injective in its (32-byte) key, the idealisation of
HKDF/HMAC collision resistance. Under them, for any storage whose `checksum`
sentinel carries the tag written under master key `k`, `Open` under other
credentials returns the integrity error and no vault value. -/
theorem C4_wrong_credentials_rejected (P : Prims)
    (parseFormat : Bytes → Except GoErr Format)
    (getMK2 : Bytes → Bytes) (st : StorageModel)
    (fmtBytes : Bytes) (fmt : Format) (blob k : Bytes)
    (hfmt : getBlock st "format" = .ok fmtBytes)
    (hparse : parseFormat fmtBytes = .ok fmt)
    (henc : aesEnc fmt.Encryption)
    (hck : fmt.Checksum = "hmac-sha-256")
    (hcs : getBlock st "checksum" = .ok blob)
    (hlen : 32 ≤ blob.length)
    (htag : blob.drop (blob.length - 32) =
      P.hmac (macKeyFor P k fmt.UniqueID) (blob.take (blob.length - 32)))
    (hdiff : macKeyFor P (getMK2 fmt.UniqueID) fmt.UniqueID
      ≠ macKeyFor P k fmt.UniqueID)
    (hinj : ∀ k1 k2 d : Bytes, k1.length = 32 → k2.length = 32 →
      P.hmac k1 d = P.hmac k2 d → k1 = k2) :
    Open P parseFormat getMK2 st =
      .error (.err "cannot read encrypted block: incorrect checksum") := by
  have hread : readEncryptedBlock P
      { masterKey := getMK2 fmt.UniqueID, format := fmt } st "checksum" =
      .error (.err "cannot read encrypted block: incorrect checksum") := by
    set v : Vault := { masterKey := getMK2 fmt.UniqueID, format := fmt } with hv
    unfold readEncryptedBlock
    rw [hcs, except_bind_ok]
    have key := newCipher_aes_eq P v henc
    have chk := newChecksum_hmac P v hck
    simp only [decodeBlob, key, chk, except_bind_ok, hmacSize, aesBlockSize]
    rw [if_neg (by omega)]
    have hne : P.hmac (macKeyFor P v.masterKey v.format.UniqueID)
        (blob.take (blob.length - 32)) ≠ blob.drop (blob.length - 32) := by
      intro heq
      rw [htag] at heq
      have hk1 : (macKeyFor P v.masterKey v.format.UniqueID).length = 32 :=
        P.hkdf_len _ _ _ _
      have hk2 : (macKeyFor P k fmt.UniqueID).length = 32 :=
        P.hkdf_len _ _ _ _
      exact hdiff (hinj _ _ _ hk1 hk2 heq)
    rw [if_pos hne]
    rfl
  unfold Open
  rw [hfmt, except_bind_ok, hparse, except_bind_ok]
  simp only [hread, except_bind_err]

/-- Injectivity of the concrete test MAC in its key, for 32-byte keys. -/
theorem testPrims_hmac_key_inj : ∀ k1 k2 d : Bytes, k1.length = 32 →
    k2.length = 32 → testPrims.hmac k1 d = testPrims.hmac k2 d → k1 = k2 := by
  intro k1 k2 d h1 h2 h
  have e1 : testPrims.hmac k1 d = k1 := by
    show (k1 ++ d ++ List.replicate 32 0).take 32 = k1
    rw [List.append_assoc, ← h1]
    exact List.take_left _ _
  have e2 : testPrims.hmac k2 d = k2 := by
    show (k2 ++ d ++ List.replicate 32 0).take 32 = k2
    rw [List.append_assoc, ← h2]
    exact List.take_left _ _
  rw [e1, e2] at h
  exact h

theorem C4_wrong_credentials_rejected_witness :
    Open testPrims wParseFormat wGetMK2 wStC4 =
      .error (.err "cannot read encrypted block: incorrect checksum") :=
  C4_wrong_credentials_rejected testPrims wParseFormat wGetMK2 wStC4
    wFmtBytes wFmtAes (List.replicate 32 2) (List.replicate 32 2)
    rfl rfl (Or.inl rfl) rfl rfl (by decide) (by decide) (by decide)
    testPrims_hmac_key_inj

/-- C7 (code bug witness): when the storage write of the plaintext `format`
block fails, `Create` nevertheless returns success — the error of that
`PutBlock` call is discarded — and proceeds to write the `checksum` and
`repo` items; the resulting storage has no `format` block at all. -/
theorem C7_create_swallows_format_write_failure :
    Create testPrims wMarshalFormat wGetMK wFmtNoneC7 wUID wSentinel wIV wIV
        wRepoCfg true wFailFormatStorage = .ok (wVaultC7, wStAfterC7) ∧
    getBlock wStAfterC7 "format" = .error (.err "not found") ∧
    getBlock wStAfterC7 "checksum" = .ok wSentinel := by
  exact ⟨rfl, rfl, rfl⟩

/-- C8 counterexample: two token failures that occur before storage is
opened produce distinct error messages, each naming the failing stage
(base64 versus json), and neither is the single generic `invalid vault
token` message — so the failure is not surfaced as one generic message. -/
theorem C8_counterexample :
    OpenWithToken testPrims wB64 wUnmarshalVC wNewStorage wMasterKeyCreds
        wParseFormatC8 "BAD" =
      .error (.err "invalid vault base64 token: illegal base64 data") ∧
    OpenWithToken testPrims wB64 wUnmarshalVC wNewStorage wMasterKeyCreds
        wParseFormatC8 "J" =
      .error (.err "invalid vault json token: unexpected end of JSON input") ∧
    ("invalid vault base64 token: illegal base64 data" ≠ "invalid vault token") ∧
    ("invalid vault base64 token: illegal base64 data"
      ≠ "invalid vault json token: unexpected end of JSON input") := by
  refine ⟨rfl, rfl, by decide, by decide⟩

/-- C8 amended: each pre-storage token failure is surfaced with a
stage-specific message — `invalid vault base64 token: <cause>` for malformed
base64, `invalid vault json token: <cause>` for malformed JSON — and only a
key rejected by the credentials constructor collapses to the generic
`invalid vault token` message. -/
theorem C8_amended_stage_specific_messages (P : Prims)
    (b64decode : String → Except String Bytes)
    (unmarshalVC : Bytes → Except String VaultConfig)
    (newStorage : Bytes → Except String StorageModel)
    (masterKeyCreds : Bytes → Except String (Bytes → Bytes))
    (parseFormat : Bytes → Except GoErr Format)
    (tB tJ tK : String) (eB eJ eK : String) (bJ bK : Bytes)
    (vcK : VaultConfig) (stK : StorageModel)
    (h1 : b64decode tB = .error eB)
    (h2 : b64decode tJ = .ok bJ) (h3 : unmarshalVC bJ = .error eJ)
    (h4 : b64decode tK = .ok bK) (h5 : unmarshalVC bK = .ok vcK)
    (h6 : newStorage vcK.connectionInfo = .ok stK)
    (h7 : masterKeyCreds vcK.key = .error eK) :
    OpenWithToken P b64decode unmarshalVC newStorage masterKeyCreds parseFormat tB =
      .error (.err ("invalid vault base64 token: " ++ eB)) ∧
    OpenWithToken P b64decode unmarshalVC newStorage masterKeyCreds parseFormat tJ =
      .error (.err ("invalid vault json token: " ++ eJ)) ∧
    OpenWithToken P b64decode unmarshalVC newStorage masterKeyCreds parseFormat tK =
      .error (.err "invalid vault token") := by
  refine ⟨?_, ?_, ?_⟩ <;>
    simp only [OpenWithToken, h1, h2, h3, h4, h5, h6, h7]

theorem C8_amended_stage_specific_messages_witness :
    OpenWithToken testPrims wB64 wUnmarshalVC wNewStorage wMasterKeyCreds
        wParseFormatC8 "BAD" =
      .error (.err ("invalid vault base64 token: " ++ "illegal base64 data")) ∧
    OpenWithToken testPrims wB64 wUnmarshalVC wNewStorage wMasterKeyCreds
        wParseFormatC8 "J" =
      .error (.err ("invalid vault json token: " ++ "unexpected end of JSON input")) ∧
    OpenWithToken testPrims wB64 wUnmarshalVC wNewStorage wMasterKeyCreds
        wParseFormatC8 "K" =
      .error (.err "invalid vault token") :=
  C8_amended_stage_specific_messages testPrims wB64 wUnmarshalVC wNewStorage
    wMasterKeyCreds wParseFormatC8 "BAD" "J" "K" "illegal base64 data"
    "unexpected end of JSON input" "invalid key" [1] [2] ⟨[9], [7]⟩ wStorage
    rfl rfl rfl rfl rfl rfl rfl

/-- C10 counterexample: with encryption enabled, decoding the empty blob does
not return an error — `p := len(content) - hash.Size()` is negative and
`content[0:p]` is an out-of-range slice access (a runtime panic). -/
theorem C10_counterexample :
    decodeBlob testPrims wVault [] = .error (.panic "slice bounds out of range") := rfl

/-- C10 amended: `readEncryptedBlock`'s decode step is not total on arbitrary
blobs. With encryption enabled, a blob shorter than the 32-byte MAC size hits
an out-of-range slice access, and a blob shorter than IV size + MAC size (48
bytes) whose MAC check passes hits a negative-length allocation — runtime
panics, not returned errors. -/
theorem C10_amended_short_blob_panics (P : Prims) (v : Vault) (content : Bytes)
    (henc : aesEnc v.format.Encryption)
    (hck : v.format.Checksum = "hmac-sha-256")
    (hshort : content.length < 32 ∨
      (content.length < 48 ∧
        P.hmac (macKeyFor P v.masterKey v.format.UniqueID)
          (content.take (content.length - 32)) = content.drop (content.length - 32))) :
    decodeBlob P v content =
      .error (.panic (if content.length < 32 then "slice bounds out of range"
        else "makeslice: len out of range")) := by
  have key := newCipher_aes_eq P v henc
  have chk := newChecksum_hmac P v hck
  simp only [decodeBlob, key, chk, except_bind_ok, hmacSize, aesBlockSize]
  by_cases h32 : content.length < 32
  · rw [if_pos h32, if_pos h32]
    rfl
  · rcases hshort with h | ⟨h48, hmaceq⟩
    · exact absurd h h32
    · rw [if_neg h32]
      rw [if_neg (by simpa using hmaceq)]
      rw [if_pos (by omega), if_neg h32]
      rfl

theorem C10_amended_short_blob_panics_witness :
    decodeBlob testPrims wVault [3, 4] =
      .error (.panic (if ([3, 4] : Bytes).length < 32 then "slice bounds out of range"
        else "makeslice: len out of range")) :=
  C10_amended_short_blob_panics testPrims wVault [3, 4] (Or.inl rfl) rfl
    (Or.inl (by decide))

end KopiaVault
